import Mathlib

/-!
# Verification of the Kod banking application core

Shallow embedding of the core logic of the repository
(`backend/user_service.py`, `backend/db.py`, `backend/jwt_service.py`,
`backend/auth_service.py`) together with proofs of the specified
properties of the transfer engine and the session-token lifecycle.

Modelling conventions:
* Currency amounts are exact rationals (`ℚ`).  The Python source stores
  balances in a SQL `DECIMAL` column and converts through `float`; the
  claims under study are about exact arithmetic, so rounding of IEEE
  floats (and the float specials `nan`/`inf`) is outside the model.
* The database is a `BankState` record threaded explicitly.  Each call to
  `db.execute_query` opens its own connection and commits (or rolls back)
  only its own single statement — there is no transaction spanning several
  statements.  We model an infrastructure fault at the i-th query of an
  operation by a fault schedule `faults : Nat → Bool`; a faulted query
  raises `mysql.connector.Error` after rolling back only itself, exactly
  as `execute_query` does.
* `bcrypt` and `PyJWT` are external libraries.  They are modelled
  symbolically: `bcrypt` as a deterministic one-way tag, and the
  HMAC-SHA256 signature of `jwt.encode` as an ideal MAC (injective in the
  signed message), the standard symbolic idealisation of a collision-free
  keyed hash.
-/

/-- One row of the `kodusers` table (`init_db`/`user_service`). -/
structure Account where
  uid : String
  username : String
  email : String
  passwordHash : String
  phone : String
  balance : ℚ
  deriving Repr, DecidableEq

/-- One row of the `transactions` table. -/
structure TxRecord where
  sender : String
  receiver : String
  amount : ℚ
  ttype : String
  status : String
  deriving Repr, DecidableEq

/-- One row of the `cjwt` token-ledger table. -/
structure TokenRec where
  token : List Char
  uid : String
  expiry : Nat
  deriving Repr, DecidableEq

/-- The persisted state of the application: the three tables used by the
core (`kodusers`, `transactions`, `cjwt`). -/
structure BankState where
  users : List Account
  transactions : List TxRecord
  cjwt : List TokenRec
  deriving Repr, DecidableEq

/-- A character of the class `[a-zA-Z0-9_]` of the username regex. -/
def isWordChar (c : Char) : Bool :=
  c.isAlphanum || c == '_'

/-- `re.match(r'^[a-zA-Z0-9_]+$', s)` of the Python `re` module: a
non-empty all-word-character match, where `$` also accepts a position just
before one trailing newline. -/
def pythonWordFullmatch (s : List Char) : Bool :=
  let core := if s.getLast? = some '\n' then s.dropLast else s
  !core.isEmpty && core.all isWordChar

/-- `user_service.validate_username`: non-empty string of length 1..50
matching `^[a-zA-Z0-9_]+$`. -/
def validate_username (username : String) : Bool :=
  if username.data.isEmpty then false
  else if username.data.length > 50 || username.data.length < 1 then false
  else pythonWordFullmatch username.data

/-- The `amount` argument of `transfer_money` as seen by `float(amount)`:
either a value that coerces to a (rational) number, or an input on which
`float` raises `ValueError`/`TypeError`. -/
inductive AmountInput where
  | num (q : ℚ)
  | malformed
  deriving Repr, DecidableEq

/-- Result dictionary returned by `transfer_money`. -/
structure TransferResult where
  success : Bool
  message : String
  error_code : Option String
  sender_balance : Option ℚ
  receiver_balance : Option ℚ
  deriving Repr, DecidableEq

/-- `SELECT ... FROM kodusers WHERE username = %s` followed by
`results[0]`: the first row whose `username` column matches. -/
def findUser (st : BankState) (username : String) : Option Account :=
  st.users.find? (fun a => a.username == username)

/-- `UPDATE kodusers SET balance = %s WHERE username = %s`: every row
whose `username` matches gets the new balance. -/
def updateBalance (st : BankState) (username : String) (b : ℚ) : BankState :=
  { st with users := st.users.map (fun a => if a.username == username then { a with balance := b } else a) }

/-- `INSERT INTO transactions ... VALUES (%s, %s, %s, 'transfer', 'completed')`. -/
def appendTx (st : BankState) (sender receiver : String) (amount : ℚ) : BankState :=
  { st with transactions := st.transactions ++ [⟨sender, receiver, amount, "transfer", "completed"⟩] }

/-- The fault-free schedule: every `execute_query` call succeeds. -/
def noFaults : Nat → Bool := fun _ => false

/-- Fault injected exactly at call 3, the `UPDATE` crediting the
receiver — i.e. the credit fails after the debit already committed. -/
def creditFault : Nat → Bool := fun i => i == 3

/-- Every `execute_query` call fails: a run that returns the same result
and state under `allFaults` as under `noFaults` provably never reached
the database. -/
def allFaults : Nat → Bool := fun _ => true

/-- Concrete two-account table used to evaluate the claims:
alice holds 1000, bob holds 500. -/
def demoState : BankState :=
  ⟨[⟨"u1", "alice", "a@x.com", "h1", "1234567890", 1000⟩,
    ⟨"u2", "bob", "b@x.com", "h2", "1234567890", 500⟩], [], []⟩

/-- `user_service.transfer_money`, threaded over the persisted state.

The five `execute_query` calls of one run are numbered in program order:
0 = `SELECT` of the sender, 1 = `SELECT` of the receiver, 2 = `UPDATE` of
the sender's balance, 3 = `UPDATE` of the receiver's balance, 4 = `INSERT`
of the transfer record.  `faults i = true` makes call `i` raise
`mysql.connector.Error`; `execute_query` rolls back only that statement's
own connection, so effects already committed by earlier calls persist, and
`transfer_money` catches the error and returns its `DATABASE_ERROR`
dictionary. -/
def transfer_money (st : BankState) (sender_username receiver_username : String)
    (amount : AmountInput) (faults : Nat → Bool) : TransferResult × BankState :=
  if ¬ validate_username sender_username then
    (⟨false, "Invalid sender username format", some "VALIDATION_ERROR", none, none⟩, st)
  else if ¬ validate_username receiver_username then
    (⟨false, "Invalid receiver username format", some "VALIDATION_ERROR", none, none⟩, st)
  else
    match amount with
    | .malformed =>
        (⟨false, "Invalid amount format", some "VALIDATION_ERROR", none, none⟩, st)
    | .num q =>
      if q ≤ 0 then
        (⟨false, "Transfer amount must be greater than zero", some "INVALID_AMOUNT", none, none⟩, st)
      else if sender_username == receiver_username then
        (⟨false, "Cannot transfer money to yourself", some "INVALID_TRANSFER", none, none⟩, st)
      else if faults 0 then
        (⟨false, "Transfer failed due to database error", some "DATABASE_ERROR", none, none⟩, st)
      else
        match findUser st sender_username with
        | none => (⟨false, "Sender account not found", some "SENDER_NOT_FOUND", none, none⟩, st)
        | some sender =>
          if faults 1 then
            (⟨false, "Transfer failed due to database error", some "DATABASE_ERROR", none, none⟩, st)
          else
            match findUser st receiver_username with
            | none => (⟨false, "Receiver account not found", some "RECEIVER_NOT_FOUND", none, none⟩, st)
            | some receiver =>
              if sender.balance < q then
                (⟨false, "Insufficient balance. Available: " ++ toString sender.balance,
                  some "INSUFFICIENT_BALANCE", none, none⟩, st)
              else
                -- new_sender_balance = sender.balance - q,
                -- new_receiver_balance = receiver.balance + q
                if faults 2 then
                  (⟨false, "Transfer failed due to database error", some "DATABASE_ERROR", none, none⟩, st)
                else
                  -- the debit is committed by its own connection
                  if faults 3 then
                    (⟨false, "Transfer failed due to database error", some "DATABASE_ERROR", none, none⟩,
                     updateBalance st sender_username (sender.balance - q))
                  else
                    if faults 4 then
                      (⟨false, "Transfer failed due to database error", some "DATABASE_ERROR", none, none⟩,
                       updateBalance (updateBalance st sender_username (sender.balance - q))
                         receiver_username (receiver.balance + q))
                    else
                      (⟨true, "Successfully transferred " ++ toString q ++ " to " ++ receiver_username,
                        none, some (sender.balance - q), some (receiver.balance + q)⟩,
                       appendTx
                         (updateBalance (updateBalance st sender_username (sender.balance - q))
                           receiver_username (receiver.balance + q))
                         sender_username receiver_username q)

/-- A batch of fault-free transfers, applied in order; the result
dictionaries are discarded, only the committed state is kept. -/
def runTransfers (st : BankState) : List (String × String × AmountInput) → BankState
  | [] => st
  | (su, ru, amt) :: ops => runTransfers (transfer_money st su ru amt noFaults).2 ops

/-- Sum of all balances of the `kodusers` table. -/
def totalBalance (st : BankState) : ℚ :=
  (st.users.map (·.balance)).sum

/-! ## Session tokens (`jwt_service.py`, `auth_service.py`)

`jwt.encode`/`jwt.decode` of the external PyJWT library produce and check
a token of the shape `body.signature`, where the signature is an
HMAC-SHA256 over the body under the configured secret.  The library is
modelled symbolically: the payload is serialised into a dot-free body by a
fixed-width hexadecimal character encoding, and the HMAC is an ideal MAC —
injective in the signed message and dot-free — which is the standard
symbolic idealisation of a collision-free keyed hash. -/

/-- Six-hex-digit fixed-width encoding of one character (every Unicode
scalar value is below `16^6`). -/
def charBlock (c : Char) : List Char :=
  [Nat.digitChar (c.toNat / 1048576 % 16), Nat.digitChar (c.toNat / 65536 % 16),
   Nat.digitChar (c.toNat / 4096 % 16), Nat.digitChar (c.toNat / 256 % 16),
   Nat.digitChar (c.toNat / 16 % 16), Nat.digitChar (c.toNat % 16)]

/-- Hexadecimal encoding of a character string, six digits per character. -/
def hexEnc : List Char → List Char
  | [] => []
  | c :: cs => charBlock c ++ hexEnc cs

/-- Numeric value of a hexadecimal digit character. -/
def hexVal (c : Char) : Nat :=
  if c.toNat ≥ 97 then c.toNat - 87 else c.toNat - 48

/-- Inverse of `hexEnc`: decode six hex digits at a time. -/
def hexDec : List Char → Option (List Char)
  | [] => some []
  | d1 :: d2 :: d3 :: d4 :: d5 :: d6 :: rest =>
      (hexDec rest).map (fun cs =>
        Char.ofNat (hexVal d1 * 1048576 + hexVal d2 * 65536 + hexVal d3 * 4096 +
          hexVal d4 * 256 + hexVal d5 * 16 + hexVal d6) :: cs)
  | _ => none

/-- The JWT claim set built by `jwt_service.generate_token`:
`{sub, role, iat, exp}`, timestamps in whole seconds. -/
structure JwtPayload where
  sub : String
  role : String
  iat : Nat
  exp : Nat
  deriving Repr, DecidableEq

/-- Serialisation of the claim set into a dot-free body: hex-encoded
strings and unary (`'z'`-run) encoded timestamps, field-separated by
`'g'` (no hex digit, `'z'`, or `'.'` equals `'g'`). -/
def serializePayload (p : JwtPayload) : List Char :=
  hexEnc p.sub.data ++
    ('g' :: (hexEnc p.role.data ++
      ('g' :: (List.replicate p.iat 'z' ++ ('g' :: List.replicate p.exp 'z')))))

/-- Split a character list at every occurrence of `sep` (like
`str.split`): `n` separators yield `n+1` fields. -/
def splitOnSep (sep : Char) : List Char → List (List Char)
  | [] => [[]]
  | c :: cs =>
    if c = sep then [] :: splitOnSep sep cs
    else
      match splitOnSep sep cs with
      | [] => [[c]]
      | p :: ps => (c :: p) :: ps

/-- Parse a body back into a claim set. -/
def parsePayload (body : List Char) : Option JwtPayload :=
  match splitOnSep 'g' body with
  | [f1, f2, f3, f4] =>
    match hexDec f1, hexDec f2 with
    | some subChars, some roleChars =>
        if f3.all (· = 'z') && f4.all (· = 'z') then
          some ⟨⟨subChars⟩, ⟨roleChars⟩, f3.length, f4.length⟩
        else none
    | _, _ => none
  | _ => none

/-- Ideal MAC standing in for HMAC-SHA256: dot-free and injective in the
signed message. -/
def macSign (secret msg : List Char) : List Char :=
  hexEnc secret ++ ('g' :: hexEnc msg)

/-- `jwt.encode(payload, secret, 'HS256')`: signed token
`body ++ '.' ++ MAC(secret, body)`. -/
def jwtEncode (secret : List Char) (p : JwtPayload) : List Char :=
  serializePayload p ++ ('.' :: macSign secret (serializePayload p))

/-- Terminal outcome of `jwt.decode`: the claim set, or
`ExpiredSignatureError`, or `InvalidTokenError`. -/
inductive JwtOutcome where
  | ok (p : JwtPayload)
  | expired
  | invalid
  deriving Repr, DecidableEq

/-- `jwt.decode(token, secret, ['HS256'])` at wall-clock time `now`:
split off the signature, verify it over the presented body, then decode
the claims and check `exp` (expired iff `exp < now`, i.e. `now` strictly
past `expires_at`). -/
def jwtDecode (secret raw : List Char) (now : Nat) : JwtOutcome :=
  match splitOnSep '.' raw with
  | [body, sig] =>
    if sig = macSign secret body then
      match parsePayload body with
      | some p => if p.exp < now then .expired else .ok p
      | none => .invalid
    else .invalid
  | _ => .invalid

/-- `JWT_EXPIRY_HOURS` (env default 1). -/
def JWT_EXPIRY_HOURS : Nat := 1

/-- `jwt_service.generate_token`: raises `ValueError` when the username
is empty or no signing secret is configured, else signs
`{sub, role, iat = now, exp = now + 1 hour}`. -/
def generate_token (secret : List Char) (username role : String) (now : Nat) :
    Except String (List Char) :=
  if username.data.isEmpty then .error "Username is required for token generation"
  else if secret.isEmpty then .error "JWT_SECRET_KEY environment variable is required"
  else .ok (jwtEncode secret ⟨username, role, now, now + 3600 * JWT_EXPIRY_HOURS⟩)

/-- `jwt_service.validate_token`: true iff the token is non-empty, a
secret is configured, and `jwt.decode` succeeds (any
`ExpiredSignatureError`/`InvalidTokenError` yields false). -/
def validate_token (secret token : List Char) (now : Nat) : Bool :=
  if token.isEmpty then false
  else if secret.isEmpty then false
  else
    match jwtDecode secret token now with
    | .ok _ => true
    | _ => false

/-- `jwt_service.decode_token`: the payload if `jwt.decode` succeeds,
`None` otherwise. -/
def decode_token (secret token : List Char) (now : Nat) : Option JwtPayload :=
  if token.isEmpty then none
  else if secret.isEmpty then none
  else
    match jwtDecode secret token now with
    | .ok p => some p
    | _ => none

/-- Result dictionary of `auth_service.verify_token_from_request`. -/
structure VerifyResult where
  valid : Bool
  username : Option String
  message : String
  error_code : Option String
  deriving Repr, DecidableEq

/-- `auth_service.verify_token_from_request`, threaded over the persisted
state to witness that it is read-only and never consults the `cjwt`
ledger: the source function performs no database call, so the state is
returned untouched and the result depends only on the token, the secret
and the clock.  (`payload.get('sub')` is falsy exactly when the subject
claim is the empty string, the model's stand-in for a missing claim.) -/
def verify_token_from_request (st : BankState) (secret token : List Char) (now : Nat) :
    VerifyResult × BankState :=
  if token.isEmpty then
    (⟨false, none, "No token provided", some "TOKEN_MISSING"⟩, st)
  else if ¬ validate_token secret token now then
    (⟨false, none, "Invalid or expired token", some "TOKEN_INVALID"⟩, st)
  else
    match decode_token secret token now with
    | none => (⟨false, none, "Invalid token format", some "TOKEN_INVALID"⟩, st)
    | some payload =>
      if payload.sub.data.isEmpty then
        (⟨false, none, "Invalid token: missing username", some "TOKEN_INVALID"⟩, st)
      else
        (⟨true, some payload.sub, "Token is valid", none⟩, st)

/-! ## Login (`auth_service.login`) -/

/-- Symbolic model of the external `bcrypt` library: hashing tags the
password (salt and cost fixed), `checkpw` re-hashes and compares. -/
def hash_password (password : String) : String :=
  "$2b$10$" ++ password

/-- `user_service.verify_password` via `bcrypt.checkpw`. -/
def verify_password (plain hashed : String) : Bool :=
  hash_password plain == hashed

/-- Result dictionary of `auth_service.login`. -/
structure LoginResult where
  success : Bool
  message : String
  token : Option (List Char)
  uid : Option String
  error_code : Option String
  deriving Repr, DecidableEq

/-- `auth_service.login`, threaded over the persisted state.

`get_user_by_username` raises `ValueError("Invalid username format")` on a
malformed username, which `login` catches and maps to `VALIDATION_ERROR`;
an absent account and a password mismatch both produce the same
`INVALID_CREDENTIALS` dictionary.  `storeFault = true` makes the `INSERT`
of `store_token` raise `mysql.connector.Error`, which `login`'s generic
handler maps to `INTERNAL_ERROR`.  (`store_token`'s `expiry` presence
check never fires — a `datetime` is always truthy — and its dictionary is
always `success = True` when it returns, so `login`'s
"Failed to create session" branch is unreachable.) -/
def login (st : BankState) (username password : String) (secret : List Char) (now : Nat)
    (storeFault : Bool) : LoginResult × BankState :=
  if username.data.isEmpty || password.data.isEmpty then
    (⟨false, "Username and password are required", none, none, some "VALIDATION_ERROR"⟩, st)
  else if ¬ validate_username username then
    (⟨false, "Invalid username format", none, none, some "VALIDATION_ERROR"⟩, st)
  else
    match findUser st username with
    | none => (⟨false, "Invalid credentials", none, none, some "INVALID_CREDENTIALS"⟩, st)
    | some user =>
      if ¬ verify_password password user.passwordHash then
        (⟨false, "Invalid credentials", none, none, some "INVALID_CREDENTIALS"⟩, st)
      else
        match generate_token secret username "customer" now with
        | .error e => (⟨false, e, none, none, some "VALIDATION_ERROR"⟩, st)
        | .ok token =>
          if token.isEmpty then
            (⟨false, "Token is required", none, none, some "VALIDATION_ERROR"⟩, st)
          else if user.uid.data.isEmpty then
            (⟨false, "User ID is required", none, none, some "VALIDATION_ERROR"⟩, st)
          else if storeFault then
            (⟨false, "Internal server error during login", none, none, some "INTERNAL_ERROR"⟩, st)
          else
            (⟨true, "Login successful", some token, some user.uid, none⟩,
             { st with cjwt := st.cjwt ++ [⟨token, user.uid, now + 3600 * JWT_EXPIRY_HOURS⟩] })

theorem username_map_updateBalance (st : BankState) (u : String) (b : ℚ) :
    (updateBalance st u b).users.map (·.username) = st.users.map (·.username) := by
  simp only [updateBalance, List.map_map]
  apply List.map_congr_left
  intro a _
  simp only [Function.comp]
  split <;> rfl

theorem findUser_updateBalance (st : BankState) (u : String) (b : ℚ) (v : String) :
    findUser (updateBalance st u b) v
      = (findUser st v).map (fun a => if a.username == u then { a with balance := b } else a) := by
  unfold findUser updateBalance
  rw [List.find?_map]
  have hp : ((fun a : Account => a.username == v) ∘ (fun a : Account => if a.username == u then { a with balance := b } else a))
      = (fun a : Account => a.username == v) := by
    funext a
    simp only [Function.comp]
    split <;> rfl
  rw [hp]

theorem sum_updateBalance (users : List Account) (u : String) (b : ℚ) (a : Account)
    (hnd : (users.map (·.username)).Nodup)
    (hfind : users.find? (fun x => x.username == u) = some a) :
    ((users.map (fun x => if x.username == u then { x with balance := b } else x)).map (·.balance)).sum
      = (users.map (·.balance)).sum - a.balance + b := by
  induction users with
  | nil => simp at hfind
  | cons x rest ih =>
    simp only [List.map_cons, List.nodup_cons] at hnd
    rw [List.find?_cons] at hfind
    by_cases hx : (x.username == u) = true
    · simp only [hx, if_pos] at hfind
      obtain rfl : x = a := by simpa using hfind
      have hxu : x.username = u := by simpa using hx
      have hrest : rest.map (fun y => if y.username == u then { y with balance := b } else y) = rest := by
        apply List.map_congr_left ?_ |>.trans (List.map_id rest)
        intro y hy
        have hneq : y.username ≠ u := by
          intro hyu
          exact hnd.1 (hxu ▸ hyu ▸ List.mem_map_of_mem (·.username) hy)
        simp [hneq]
      simp only [List.map_cons, List.sum_cons, hrest]
      rw [if_pos hx]
      ring
    · have hx' : (x.username == u) = false := by simpa using hx
      simp only [hx', Bool.false_eq_true, if_false] at hfind
      simp only [List.map_cons, List.sum_cons]
      rw [if_neg hx, ih hnd.2 hfind]
      ring

/-- Complete case analysis of `transfer_money`: either the operation is a
rejection that leaves the state untouched, or all business checks passed
and the state reflects exactly the writes whose `execute_query` calls
committed before the first injected fault. -/
theorem transfer_money_cases (st : BankState) (su ru : String) (amt : AmountInput)
    (faults : Nat → Bool) :
    (∃ r, transfer_money st su ru amt faults = (r, st) ∧ r.success = false) ∨
    (∃ q sender receiver, amt = .num q ∧ 0 < q ∧ su ≠ ru ∧
       validate_username su = true ∧ validate_username ru = true ∧
       findUser st su = some sender ∧ findUser st ru = some receiver ∧
       sender.username = su ∧ receiver.username = ru ∧ q ≤ sender.balance ∧
       ((faults 3 = true ∧
          transfer_money st su ru amt faults =
            (⟨false, "Transfer failed due to database error", some "DATABASE_ERROR", none, none⟩,
             updateBalance st su (sender.balance - q))) ∨
        (faults 3 = false ∧ faults 4 = true ∧
          transfer_money st su ru amt faults =
            (⟨false, "Transfer failed due to database error", some "DATABASE_ERROR", none, none⟩,
             updateBalance (updateBalance st su (sender.balance - q)) ru (receiver.balance + q))) ∨
        (faults 3 = false ∧ faults 4 = false ∧
          transfer_money st su ru amt faults =
            (⟨true, "Successfully transferred " ++ toString q ++ " to " ++ ru,
              none, some (sender.balance - q), some (receiver.balance + q)⟩,
             appendTx (updateBalance (updateBalance st su (sender.balance - q)) ru (receiver.balance + q))
               su ru q)))) := by
  by_cases h1 : validate_username su = true
  case neg => exact .inl ⟨⟨false, "Invalid sender username format", some "VALIDATION_ERROR", none, none⟩, by simp [transfer_money, h1], rfl⟩
  by_cases h2 : validate_username ru = true
  case neg => exact .inl ⟨⟨false, "Invalid receiver username format", some "VALIDATION_ERROR", none, none⟩, by simp [transfer_money, h1, h2], rfl⟩
  cases amt with
  | malformed => exact .inl ⟨⟨false, "Invalid amount format", some "VALIDATION_ERROR", none, none⟩, by simp [transfer_money, h1, h2], rfl⟩
  | num q =>
  by_cases h3 : q ≤ 0
  case pos => exact .inl ⟨⟨false, "Transfer amount must be greater than zero", some "INVALID_AMOUNT", none, none⟩, by simp [transfer_money, h1, h2, h3], rfl⟩
  by_cases h4 : su = ru
  case pos => exact .inl ⟨⟨false, "Cannot transfer money to yourself", some "INVALID_TRANSFER", none, none⟩, by simp [transfer_money, h1, h2, h3, h4], rfl⟩
  by_cases h5 : faults 0 = true
  case pos => exact .inl ⟨⟨false, "Transfer failed due to database error", some "DATABASE_ERROR", none, none⟩, by simp [transfer_money, h1, h2, h3, h4, h5], rfl⟩
  rcases hfs : findUser st su with _ | sender
  · exact .inl ⟨⟨false, "Sender account not found", some "SENDER_NOT_FOUND", none, none⟩, by simp [transfer_money, h1, h2, h3, h4, h5, hfs], rfl⟩
  by_cases h6 : faults 1 = true
  case pos => exact .inl ⟨⟨false, "Transfer failed due to database error", some "DATABASE_ERROR", none, none⟩, by simp [transfer_money, h1, h2, h3, h4, h5, h6, hfs], rfl⟩
  rcases hfr : findUser st ru with _ | receiver
  · exact .inl ⟨⟨false, "Receiver account not found", some "RECEIVER_NOT_FOUND", none, none⟩, by simp [transfer_money, h1, h2, h3, h4, h5, h6, hfs, hfr], rfl⟩
  by_cases h7 : sender.balance < q
  case pos => exact .inl ⟨⟨false, "Insufficient balance. Available: " ++ toString sender.balance, some "INSUFFICIENT_BALANCE", none, none⟩, by simp [transfer_money, h1, h2, h3, h4, h5, h6, h7, hfs, hfr], rfl⟩
  by_cases h8 : faults 2 = true
  case pos => exact .inl ⟨⟨false, "Transfer failed due to database error", some "DATABASE_ERROR", none, none⟩, by simp [transfer_money, h1, h2, h3, h4, h5, h6, h7, h8, hfs, hfr], rfl⟩
  refine .inr ⟨q, sender, receiver, rfl, not_le.mp h3, h4, h1, h2, rfl, rfl,
    by simpa using List.find?_some hfs, by simpa using List.find?_some hfr, le_of_not_lt h7, ?_⟩
  by_cases h9 : faults 3 = true
  case pos =>
    exact .inl ⟨h9, by simp [transfer_money, h1, h2, h3, h4, h5, h6, h7, h8, h9, hfs, hfr]⟩
  by_cases h10 : faults 4 = true
  case pos =>
    exact .inr (.inl ⟨by simpa using h9, h10,
      by simp [transfer_money, h1, h2, h3, h4, h5, h6, h7, h8, h9, h10, hfs, hfr]⟩)
  exact .inr (.inr ⟨by simpa using h9, by simpa using h10,
    by simp [transfer_money, h1, h2, h3, h4, h5, h6, h7, h8, h9, h10, hfs, hfr]⟩)

/-- A transfer never changes the `username` column of any row. -/
theorem users_username_map_transfer (st : BankState) (su ru : String) (amt : AmountInput)
    (faults : Nat → Bool) :
    (transfer_money st su ru amt faults).2.users.map (·.username) = st.users.map (·.username) := by
  rcases transfer_money_cases st su ru amt faults with ⟨r, heq, -⟩ |
    ⟨q, sender, receiver, -, -, -, -, -, -, -, -, -, -,
      ⟨-, heq⟩ | ⟨-, -, heq⟩ | ⟨-, -, heq⟩⟩ <;>
    rw [heq] <;>
    simp [appendTx, username_map_updateBalance]

theorem totalBalance_appendTx (st : BankState) (a b : String) (q : ℚ) :
    totalBalance (appendTx st a b q) = totalBalance st := rfl

/-- Fault-free transfers conserve the sum of balances (whether they
commit or are rejected), provided usernames are unique. -/
theorem totalBalance_transfer_noFaults (st : BankState) (su ru : String) (amt : AmountInput)
    (hnd : (st.users.map (·.username)).Nodup) :
    totalBalance (transfer_money st su ru amt noFaults).2 = totalBalance st := by
  rcases transfer_money_cases st su ru amt noFaults with ⟨r, heq, -⟩ |
    ⟨q, sender, receiver, -, -, hne, -, -, hfs, hfr, hsu, hru, -,
      ⟨hf3, -⟩ | ⟨-, hf4, -⟩ | ⟨-, -, heq⟩⟩
  · rw [heq]
  · exact absurd hf3 (by simp [noFaults])
  · exact absurd hf4 (by simp [noFaults])
  · rw [heq]
    have h1 : totalBalance (updateBalance st su (sender.balance - q))
        = totalBalance st - sender.balance + (sender.balance - q) :=
      sum_updateBalance st.users su _ sender hnd hfs
    have hfr1 : findUser (updateBalance st su (sender.balance - q)) ru = some receiver := by
      rw [findUser_updateBalance, hfr]
      have hx : ¬ ((receiver.username == su) = true) := by
        simp only [hru, beq_iff_eq]
        exact fun h => hne h.symm
      simp only [Option.map_some', if_neg hx]
    have hnd1 : ((updateBalance st su (sender.balance - q)).users.map (·.username)).Nodup := by
      rw [username_map_updateBalance]; exact hnd
    have h2 : totalBalance (updateBalance (updateBalance st su (sender.balance - q)) ru (receiver.balance + q))
        = totalBalance (updateBalance st su (sender.balance - q)) - receiver.balance + (receiver.balance + q) :=
      sum_updateBalance (updateBalance st su (sender.balance - q)).users ru _ receiver hnd1 hfr1
    rw [totalBalance_appendTx, h2, h1]
    ring

/-- Every row of an updated table either received the written balance or
is an untouched row of the old table. -/
theorem mem_updateBalance (st : BankState) (u : String) (b : ℚ) :
    ∀ a ∈ (updateBalance st u b).users, a.balance = b ∨ a ∈ st.users := by
  intro a ha
  simp only [updateBalance, List.mem_map] at ha
  obtain ⟨x, hx, rfl⟩ := ha
  by_cases h : (x.username == u) = true
  · rw [if_pos h]; exact .inl rfl
  · rw [if_neg h]; exact .inr hx

/-- Fault-free batches conserve the sum of balances. -/
theorem totalBalance_runTransfers (ops : List (String × String × AmountInput)) (st : BankState)
    (hnd : (st.users.map (·.username)).Nodup) :
    totalBalance (runTransfers st ops) = totalBalance st := by
  induction ops generalizing st with
  | nil => rfl
  | cons op rest ih =>
    obtain ⟨su, ru, amt⟩ := op
    rw [runTransfers, ih _ ?_, totalBalance_transfer_noFaults st su ru amt hnd]
    rw [users_username_map_transfer]
    exact hnd

/-- C1 (code bug): the three effects of step 7 are not atomic.  On the
two-account table with alice at 1000, with a fault injected at the credit
`UPDATE` (call 3) after the debit committed, `transfer_money` reports
`DATABASE_ERROR` but leaves alice debited at 900 — her balance does not
equal its pre-transfer value 1000, contradicting the claimed rollback. -/
theorem C1_transfer_not_atomic_on_credit_failure :
    (demoState.users.map fun a => (a.username, a.balance)) = [("alice", 1000), ("bob", 500)] ∧
    transfer_money demoState "alice" "bob" (.num 100) creditFault =
      (⟨false, "Transfer failed due to database error", some "DATABASE_ERROR", none, none⟩,
       ⟨[⟨"u1", "alice", "a@x.com", "h1", "1234567890", 900⟩,
         ⟨"u2", "bob", "b@x.com", "h2", "1234567890", 500⟩], [], []⟩) ∧
    ((900 : ℚ) ≠ 1000) := by
  refine ⟨by decide, ?_, by norm_num⟩
  simp +decide [transfer_money, demoState, creditFault, findUser, updateBalance, List.find?]
  norm_num

/-- C2: transfers preserve non-negativity of every balance (under every
fault schedule), and a requested amount exceeding the sender's current
balance is rejected with `INSUFFICIENT_BALANCE`, the available amount in
the message, and no state change. -/
theorem C2_nonnegative_balances (st : BankState) (h : ∀ a ∈ st.users, 0 ≤ a.balance) :
    (∀ su ru amt faults, ∀ a ∈ (transfer_money st su ru amt faults).2.users, 0 ≤ a.balance) ∧
    (∀ su ru q sender receiver, validate_username su = true → validate_username ru = true →
      su ≠ ru → 0 < q → findUser st su = some sender → findUser st ru = some receiver →
      sender.balance < q →
      transfer_money st su ru (.num q) noFaults =
        (⟨false, "Insufficient balance. Available: " ++ toString sender.balance,
          some "INSUFFICIENT_BALANCE", none, none⟩, st)) := by
  constructor
  · intro su ru amt faults a ha
    rcases transfer_money_cases st su ru amt faults with ⟨r, heq, -⟩ |
      ⟨q, sender, receiver, -, hq, -, -, -, hfs, hfr, -, -, hbal,
        ⟨-, heq⟩ | ⟨-, -, heq⟩ | ⟨-, -, heq⟩⟩
    · rw [heq] at ha; exact h a ha
    · rw [heq] at ha
      rcases mem_updateBalance st su (sender.balance - q) a ha with hb | hmem
      · rw [hb]; linarith
      · exact h a hmem
    all_goals {
      rw [heq] at ha
      rcases mem_updateBalance _ ru (receiver.balance + q) a ha with hb | hmem1
      · rw [hb]
        have hr0 : 0 ≤ receiver.balance := h receiver (List.mem_of_find?_eq_some hfr)
        linarith
      · rcases mem_updateBalance st su (sender.balance - q) a hmem1 with hb | hmem
        · rw [hb]; linarith
        · exact h a hmem
    }
  · intro su ru q sender receiver hsu hru hne hq hfs hfr hbal
    simp [transfer_money, hsu, hru, not_le.mpr hq, hne, hfs, hfr, hbal, noFaults]

/-- Closed witness for C2 on the concrete two-account table: balances are
non-negative, and alice transferring 2000 with only 1000 available is
rejected with `INSUFFICIENT_BALANCE` carrying 1000, state untouched. -/
theorem C2_nonnegative_balances_witness :
    (∀ a ∈ demoState.users, 0 ≤ a.balance) ∧
    transfer_money demoState "alice" "bob" (.num 2000) noFaults =
      (⟨false, "Insufficient balance. Available: " ++ toString ((1000 : ℚ)),
        some "INSUFFICIENT_BALANCE", none, none⟩, demoState) :=
  ⟨by decide,
   (C2_nonnegative_balances demoState (by decide)).2 "alice" "bob" 2000
     ⟨"u1", "alice", "a@x.com", "h1", "1234567890", 1000⟩
     ⟨"u2", "bob", "b@x.com", "h2", "1234567890", 500⟩
     (by decide) (by decide) (by decide) (by decide) (by decide) (by decide) (by decide)⟩

/-- C3: for any fault-free batch of transfers the sum of all balances is
conserved, and each successful transfer debits exactly the sender by the
amount, credits exactly the receiver by the amount, and leaves every
other row untouched. -/
theorem C3_balance_conservation (st : BankState)
    (hnd : (st.users.map (·.username)).Nodup) :
    (∀ ops, totalBalance (runTransfers st ops) = totalBalance st) ∧
    (∀ su ru q sender receiver res st',
      transfer_money st su ru (.num q) noFaults = (res, st') → res.success = true →
      findUser st su = some sender → findUser st ru = some receiver →
      findUser st' su = some { sender with balance := sender.balance - q } ∧
      findUser st' ru = some { receiver with balance := receiver.balance + q } ∧
      ∀ a ∈ st.users, a.username ≠ su → a.username ≠ ru → a ∈ st'.users) := by
  constructor
  · intro ops; exact totalBalance_runTransfers ops st hnd
  · intro su ru q sender receiver res st' heq hsucc hfs hfr
    rcases transfer_money_cases st su ru (.num q) noFaults with ⟨r, heq', hfail⟩ |
      ⟨q', sender', receiver', hq', -, hne, -, -, hfs', hfr', hsu, hru, -,
        ⟨hf3, -⟩ | ⟨-, hf4, -⟩ | ⟨-, -, heq'⟩⟩
    · rw [heq] at heq'
      cases heq'
      rw [hsucc] at hfail
      exact absurd hfail (by simp)
    · exact absurd hf3 (by simp [noFaults])
    · exact absurd hf4 (by simp [noFaults])
    · injection hq' with hqq
      subst hqq
      rw [hfs] at hfs'; injection hfs' with hsend
      rw [hfr] at hfr'; injection hfr' with hrecv
      subst hsend hrecv
      rw [heq] at heq'
      injection heq' with h1 h2
      subst h2
      have hsu' : (sender.username == su) = true := by simp [hsu]
      have hru' : (receiver.username == ru) = true := by simp [hru]
      have hrs : ¬ ((receiver.username == su) = true) := by
        simp only [hru, beq_iff_eq]
        exact fun hcontra => hne hcontra.symm
      have hss : ¬ ((({ sender with balance := sender.balance - q }).username == ru) = true) := by
        simp only [hsu, beq_iff_eq]
        exact hne
      have e1 : findUser (updateBalance st su (sender.balance - q)) su
          = some { sender with balance := sender.balance - q } := by
        rw [findUser_updateBalance, hfs]
        simp only [Option.map_some', if_pos hsu']
      have e2 : findUser (updateBalance (updateBalance st su (sender.balance - q)) ru
            (receiver.balance + q)) su
          = some { sender with balance := sender.balance - q } := by
        rw [findUser_updateBalance, e1]
        simp only [Option.map_some', if_neg hss]
      have e3 : findUser (updateBalance st su (sender.balance - q)) ru = some receiver := by
        rw [findUser_updateBalance, hfr]
        simp only [Option.map_some', if_neg hrs]
      have e4 : findUser (updateBalance (updateBalance st su (sender.balance - q)) ru
            (receiver.balance + q)) ru
          = some { receiver with balance := receiver.balance + q } := by
        rw [findUser_updateBalance, e3]
        simp only [Option.map_some', if_pos hru']
      refine ⟨e2, e4, ?_⟩
      intro a ha hnsu hnru
      have m1 : a ∈ (updateBalance st su (sender.balance - q)).users := by
        have hmem := List.mem_map_of_mem
          (fun x : Account => if x.username == su then { x with balance := sender.balance - q } else x) ha
        simpa [updateBalance, hnsu] using hmem
      have m2 : a ∈ (updateBalance (updateBalance st su (sender.balance - q)) ru
          (receiver.balance + q)).users := by
        have hmem := List.mem_map_of_mem
          (fun x : Account => if x.username == ru then { x with balance := receiver.balance + q } else x) m1
        simpa [updateBalance, hnru] using hmem
      exact m2

/-- Closed witness for C3: on the concrete table, one committed transfer
of 100 from alice to bob conserves the sum of balances. -/
theorem C3_balance_conservation_witness :
    (demoState.users.map (·.username)).Nodup ∧
    totalBalance (runTransfers demoState [("alice", "bob", .num 100)]) = totalBalance demoState :=
  ⟨by decide, (C3_balance_conservation demoState (by decide)).1 [("alice", "bob", .num 100)]⟩

/-- C4: with well-formed distinct usernames, a non-numeric amount is
rejected with `VALIDATION_ERROR` and a non-positive amount with
`INVALID_AMOUNT`; both conclusions hold under every fault schedule, so
the rejection happens before any database call — no account is resolved,
no balance and no transfer record changes. -/
theorem C4_invalid_amount_rejected (st : BankState) (su ru : String) (faults : Nat → Bool)
    (hsu : validate_username su = true) (hru : validate_username ru = true) (hne : su ≠ ru) :
    transfer_money st su ru .malformed faults =
      (⟨false, "Invalid amount format", some "VALIDATION_ERROR", none, none⟩, st) ∧
    ∀ q : ℚ, q ≤ 0 →
      transfer_money st su ru (.num q) faults =
        (⟨false, "Transfer amount must be greater than zero", some "INVALID_AMOUNT", none, none⟩, st) := by
  constructor
  · simp [transfer_money, hsu, hru]
  · intro q hq
    simp [transfer_money, hsu, hru, hq]

/-- Closed witness for C4 at a concrete input, under the all-faults
schedule (so the run provably touched no database call). -/
theorem C4_invalid_amount_rejected_witness :
    validate_username "alice" = true ∧ ((-5 : ℚ) ≤ 0) ∧
    transfer_money demoState "alice" "bob" .malformed allFaults =
      (⟨false, "Invalid amount format", some "VALIDATION_ERROR", none, none⟩, demoState) ∧
    transfer_money demoState "alice" "bob" (.num (-5)) allFaults =
      (⟨false, "Transfer amount must be greater than zero", some "INVALID_AMOUNT", none, none⟩, demoState) :=
  ⟨by decide, by norm_num,
   (C4_invalid_amount_rejected demoState "alice" "bob" allFaults (by decide) (by decide) (by decide)).1,
   (C4_invalid_amount_rejected demoState "alice" "bob" allFaults (by decide) (by decide) (by decide)).2
     (-5) (by norm_num)⟩

/-- C5: a transfer from a well-formed username to itself with a positive
amount is rejected with `INVALID_TRANSFER` under every fault schedule —
the state (balances and transfer records alike) is returned unchanged —
and conversely every run reporting `success = True` has distinct sender
and receiver. -/
theorem C5_self_transfer_rejected :
    (∀ (st : BankState) (u : String) (q : ℚ) (faults : Nat → Bool),
      validate_username u = true → 0 < q →
      transfer_money st u u (.num q) faults =
        (⟨false, "Cannot transfer money to yourself", some "INVALID_TRANSFER", none, none⟩, st)) ∧
    (∀ (st : BankState) (su ru : String) (amt : AmountInput) (faults : Nat → Bool) res st',
      transfer_money st su ru amt faults = (res, st') → res.success = true → su ≠ ru) := by
  constructor
  · intro st u q faults hu hq
    simp [transfer_money, hu, not_le.mpr hq]
  · intro st su ru amt faults res st' heq hsucc
    rcases transfer_money_cases st su ru amt faults with ⟨r, heq', hfail⟩ |
      ⟨q, sender, receiver, -, -, hne, -, -, -, -, -, -, -, -⟩
    · rw [heq] at heq'
      cases heq'
      rw [hsucc] at hfail
      exact absurd hfail (by simp)
    · exact hne

/-- Closed witness for C5: `transfer("alice","alice",10)` is rejected
with `INVALID_TRANSFER` and the state is unchanged. -/
theorem C5_self_transfer_rejected_witness :
    validate_username "alice" = true ∧ ((0 : ℚ) < 10) ∧
    transfer_money demoState "alice" "alice" (.num 10) allFaults =
      (⟨false, "Cannot transfer money to yourself", some "INVALID_TRANSFER", none, none⟩, demoState) :=
  ⟨by decide, by norm_num,
   C5_self_transfer_rejected.1 demoState "alice" 10 allFaults (by decide) (by norm_num)⟩

/-! ### Facts about the token encoding -/

theorem char_toNat_lt (c : Char) : c.toNat < 16777216 := by
  have h := c.valid
  simp only [UInt32.isValidChar, Nat.isValidChar] at h
  unfold Char.toNat
  omega

theorem digitChar_not_special :
    ∀ m : Nat, m < 16 → Nat.digitChar m ≠ '.' ∧ Nat.digitChar m ≠ 'g' ∧ Nat.digitChar m ≠ 'z' := by
  decide

theorem hexVal_digitChar : ∀ m : Nat, m < 16 → hexVal (Nat.digitChar m) = m := by decide

theorem hexDec_charBlock (c : Char) (rest : List Char) :
    hexDec (charBlock c ++ rest) = (hexDec rest).map (c :: ·) := by
  have hlt := char_toNat_lt c
  show hexDec (Nat.digitChar (c.toNat / 1048576 % 16) :: Nat.digitChar (c.toNat / 65536 % 16) ::
      Nat.digitChar (c.toNat / 4096 % 16) :: Nat.digitChar (c.toNat / 256 % 16) ::
      Nat.digitChar (c.toNat / 16 % 16) :: Nat.digitChar (c.toNat % 16) :: rest)
    = (hexDec rest).map (c :: ·)
  rw [hexDec]
  have e1 := hexVal_digitChar (c.toNat / 1048576 % 16) (Nat.mod_lt _ (by norm_num))
  have e2 := hexVal_digitChar (c.toNat / 65536 % 16) (Nat.mod_lt _ (by norm_num))
  have e3 := hexVal_digitChar (c.toNat / 4096 % 16) (Nat.mod_lt _ (by norm_num))
  have e4 := hexVal_digitChar (c.toNat / 256 % 16) (Nat.mod_lt _ (by norm_num))
  have e5 := hexVal_digitChar (c.toNat / 16 % 16) (Nat.mod_lt _ (by norm_num))
  have e6 := hexVal_digitChar (c.toNat % 16) (Nat.mod_lt _ (by norm_num))
  rw [e1, e2, e3, e4, e5, e6]
  have hsum : c.toNat / 1048576 % 16 * 1048576 + c.toNat / 65536 % 16 * 65536 +
      c.toNat / 4096 % 16 * 4096 + c.toNat / 256 % 16 * 256 + c.toNat / 16 % 16 * 16 +
      c.toNat % 16 = c.toNat := by omega
  rw [hsum, Char.ofNat_toNat]

theorem hexDec_hexEnc (s : List Char) : hexDec (hexEnc s) = some s := by
  induction s with
  | nil => rfl
  | cons c cs ih => rw [hexEnc, hexDec_charBlock, ih, Option.map_some']

theorem hexEnc_injective {s t : List Char} (h : hexEnc s = hexEnc t) : s = t := by
  have hs := hexDec_hexEnc s
  rw [h, hexDec_hexEnc t] at hs
  exact (Option.some.inj hs).symm

theorem mem_hexEnc_not_special {x : Char} {s : List Char} (hx : x ∈ hexEnc s) :
    x ≠ '.' ∧ x ≠ 'g' ∧ x ≠ 'z' := by
  induction s with
  | nil => simp [hexEnc] at hx
  | cons c cs ih =>
    rw [hexEnc, List.mem_append] at hx
    rcases hx with hx | hx
    · have : ∃ m, m < 16 ∧ x = Nat.digitChar m := by
        simp only [charBlock, List.mem_cons, List.not_mem_nil, or_false] at hx
        rcases hx with h | h | h | h | h | h <;>
          exact ⟨_, Nat.mod_lt _ (by norm_num), h⟩
      obtain ⟨m, hm, rfl⟩ := this
      exact digitChar_not_special m hm
    · exact ih hx

theorem splitOnSep_of_not_mem {sep : Char} {l : List Char} (h : sep ∉ l) :
    splitOnSep sep l = [l] := by
  induction l with
  | nil => rfl
  | cons c cs ih =>
    rw [splitOnSep]
    have hc : ¬ (c = sep) := fun hc => h (hc ▸ List.mem_cons_self c cs)
    rw [if_neg hc, ih (fun hm => h (List.mem_cons_of_mem c hm))]

theorem splitOnSep_append {sep : Char} {a : List Char} (b : List Char) (h : sep ∉ a) :
    splitOnSep sep (a ++ sep :: b) = a :: splitOnSep sep b := by
  induction a with
  | nil => simp [splitOnSep]
  | cons c cs ih =>
    have hc : ¬ (c = sep) := fun hc => h (hc ▸ List.mem_cons_self c cs)
    rw [List.cons_append, splitOnSep, if_neg hc, ih (fun hm => h (List.mem_cons_of_mem c hm))]

theorem splitOnSep_ne_nil (sep : Char) (l : List Char) : splitOnSep sep l ≠ [] := by
  induction l with
  | nil => simp [splitOnSep]
  | cons c cs ih =>
    rw [splitOnSep]
    by_cases hc : c = sep
    · simp [hc]
    · rw [if_neg hc]
      rcases hs : splitOnSep sep cs with _ | ⟨p, ps⟩
      · exact absurd hs ih
      · simp

theorem g_not_mem_serializePayload_fields (p : JwtPayload) :
    'g' ∉ hexEnc p.sub.data ∧ 'g' ∉ hexEnc p.role.data ∧
    'g' ∉ List.replicate p.iat 'z' ∧ 'g' ∉ List.replicate p.exp 'z' := by
  refine ⟨fun h => (mem_hexEnc_not_special h).2.1 rfl,
    fun h => (mem_hexEnc_not_special h).2.1 rfl, fun h => ?_, fun h => ?_⟩ <;>
    · rw [List.mem_replicate] at h
      exact absurd h.2 (by decide)

theorem dot_not_mem_serializePayload (p : JwtPayload) :
    '.' ∉ serializePayload p := by
  intro h
  rw [serializePayload] at h
  rcases List.mem_append.mp h with h | h
  · exact (mem_hexEnc_not_special h).1 rfl
  rcases List.mem_cons.mp h with h | h
  · exact absurd h (by decide)
  rcases List.mem_append.mp h with h | h
  · exact (mem_hexEnc_not_special h).1 rfl
  rcases List.mem_cons.mp h with h | h
  · exact absurd h (by decide)
  rcases List.mem_append.mp h with h | h
  · exact absurd (List.mem_replicate.mp h).2 (by decide)
  rcases List.mem_cons.mp h with h | h
  · exact absurd h (by decide)
  · exact absurd (List.mem_replicate.mp h).2 (by decide)

theorem dot_not_mem_macSign (secret msg : List Char) :
    '.' ∉ macSign secret msg := by
  intro h
  rw [macSign] at h
  rcases List.mem_append.mp h with h | h
  · exact (mem_hexEnc_not_special h).1 rfl
  rcases List.mem_cons.mp h with h | h
  · exact absurd h (by decide)
  · exact (mem_hexEnc_not_special h).1 rfl

theorem macSign_inj_msg {secret m m' : List Char} (h : macSign secret m = macSign secret m') :
    m = m' := by
  rw [macSign, macSign] at h
  have := List.append_inj_right h (by rfl)
  exact hexEnc_injective (List.cons.inj this).2

/-- `List.all (· = 'z')` holds of a replicate of `'z'`. -/
theorem all_z_replicate (n : Nat) : (List.replicate n 'z').all (· = 'z') = true := by
  rw [List.all_eq_true]
  intro x hx
  simp [List.mem_replicate] at hx
  simp [hx]

theorem parsePayload_serializePayload (p : JwtPayload) :
    parsePayload (serializePayload p) = some p := by
  obtain ⟨hg1, hg2, hg3, hg4⟩ := g_not_mem_serializePayload_fields p
  rw [parsePayload, serializePayload]
  rw [splitOnSep_append _ hg1, splitOnSep_append _ hg2, splitOnSep_append _ hg3,
    splitOnSep_of_not_mem hg4]
  dsimp only
  rw [hexDec_hexEnc, hexDec_hexEnc]
  rw [all_z_replicate, all_z_replicate]
  simp only [Bool.and_self, if_true, List.length_replicate]

/-- Decoding an issued token verifies the signature and yields the
payload, or `expired` when `now` is strictly past `exp`. -/
theorem jwtDecode_jwtEncode (secret : List Char) (p : JwtPayload) (now : Nat) :
    jwtDecode secret (jwtEncode secret p) now
      = if p.exp < now then JwtOutcome.expired else JwtOutcome.ok p := by
  rw [jwtDecode, jwtEncode]
  rw [splitOnSep_append _ (dot_not_mem_serializePayload p),
    splitOnSep_of_not_mem (dot_not_mem_macSign secret (serializePayload p))]
  dsimp only
  rw [if_pos rfl, parsePayload_serializePayload]

/-- Altering one character anywhere in an issued token makes `jwt.decode`
reject it as invalid, at every verification time. -/
theorem jwtDecode_tamper (secret : List Char) (p : JwtPayload) (now : Nat) (i : Nat) (c : Char)
    (hi : i < (jwtEncode secret p).length)
    (hc : c ≠ (jwtEncode secret p).get ⟨i, hi⟩) :
    jwtDecode secret ((jwtEncode secret p).set i c) now = JwtOutcome.invalid := by
  have hdb : '.' ∉ serializePayload p := dot_not_mem_serializePayload p
  have hds : '.' ∉ macSign secret (serializePayload p) :=
    dot_not_mem_macSign secret (serializePayload p)
  rw [List.get_eq_getElem] at hc
  have htok : jwtEncode secret p = serializePayload p ++ ('.' :: macSign secret (serializePayload p)) := rfl
  simp only [htok] at hi hc ⊢
  have hlen : i < (serializePayload p).length + ((macSign secret (serializePayload p)).length + 1) := by
    simpa [List.length_append] using hi
  rcases lt_trichotomy i (serializePayload p).length with hlt | hmid | hgt
  · -- the altered character lies in the body
    rw [List.set_append_left i c hlt]
    rw [List.getElem_append_left hlt] at hc
    have hbody : (serializePayload p).set i c ≠ serializePayload p := by
      intro he
      have h1 : ((serializePayload p).set i c)[i]? = some c := List.getElem?_set_self hlt
      rw [he, List.getElem?_eq_getElem hlt] at h1
      exact hc (Option.some.inj h1).symm
    by_cases hcd : c = '.'
    · subst hcd
      rw [List.set_eq_take_append_cons_drop, if_pos hlt, List.append_assoc, List.cons_append]
      rw [jwtDecode, splitOnSep_append _ (fun hm => hdb (List.take_subset i _ hm)),
        splitOnSep_append _ (fun hm => hdb (List.drop_subset (i+1) _ hm)),
        splitOnSep_of_not_mem hds]
    · have hdb' : '.' ∉ (serializePayload p).set i c := by
        intro hm
        rcases List.mem_or_eq_of_mem_set hm with hm | hm
        · exact hdb hm
        · exact hcd hm.symm
      rw [jwtDecode, splitOnSep_append _ hdb', splitOnSep_of_not_mem hds]
      dsimp only
      rw [if_neg (fun hsig => hbody (macSign_inj_msg hsig).symm)]
  · -- the altered character is the separating dot itself
    have hib : i < ((serializePayload p) ++ ('.' :: macSign secret (serializePayload p))).length := by
      simpa using hlen
    have hget : ((serializePayload p) ++ ('.' :: macSign secret (serializePayload p)))[i] = '.' := by
      rw [List.getElem_append_right (le_of_eq hmid.symm)]
      simp [hmid]
    rw [hget] at hc
    rw [List.set_append_right i c (le_of_eq hmid.symm), hmid, Nat.sub_self,
      List.set_cons_zero]
    have hnm : '.' ∉ (serializePayload p) ++ (c :: macSign secret (serializePayload p)) := by
      intro hm
      rcases List.mem_append.mp hm with hm | hm
      · exact hdb hm
      rcases List.mem_cons.mp hm with hm | hm
      · exact hc hm.symm
      · exact hds hm
    rw [jwtDecode, splitOnSep_of_not_mem hnm]
  · -- the altered character lies in the signature
    obtain ⟨j, rfl⟩ : ∃ j, i = (serializePayload p).length + (j + 1) := by
      refine ⟨i - (serializePayload p).length - 1, ?_⟩
      omega
    rw [List.set_append_right _ c (by omega), Nat.add_sub_cancel_left, List.set_cons_succ]
    have hj : j < (macSign secret (serializePayload p)).length := by omega
    rw [List.getElem_append_right (by omega)] at hc
    simp only [Nat.add_sub_cancel_left, List.getElem_cons_succ] at hc
    have hsig : (macSign secret (serializePayload p)).set j c
        ≠ macSign secret (serializePayload p) := by
      intro he
      have h1 : ((macSign secret (serializePayload p)).set j c)[j]? = some c :=
        List.getElem?_set_self hj
      rw [he, List.getElem?_eq_getElem hj] at h1
      exact hc (Option.some.inj h1).symm
    by_cases hcd : c = '.'
    · subst hcd
      rw [List.set_eq_take_append_cons_drop, if_pos hj]
      rw [jwtDecode, splitOnSep_append _ hdb,
        splitOnSep_append _ (fun hm => hds (List.take_subset j _ hm)),
        splitOnSep_of_not_mem (fun hm => hds (List.drop_subset (j+1) _ hm))]
    · have hds' : '.' ∉ (macSign secret (serializePayload p)).set j c := by
        intro hm
        rcases List.mem_or_eq_of_mem_set hm with hm | hm
        · exact hds hm
        · exact hcd hm.symm
      rw [jwtDecode, splitOnSep_append _ hdb, splitOnSep_of_not_mem hds']
      dsimp only
      rw [if_neg (fun hsig2 => hsig hsig2)]

/-! ### Lemmas about token issue and verification -/

theorem jwtEncode_ne_nil (secret : List Char) (p : JwtPayload) : jwtEncode secret p ≠ [] := by
  rw [jwtEncode]
  cases h : serializePayload p <;> simp

theorem generate_token_ok (secret : List Char) (s r : String) (now : Nat)
    (hs : s.data.isEmpty = false) (hsec : secret.isEmpty = false) :
    generate_token secret s r now
      = .ok (jwtEncode secret ⟨s, r, now, now + 3600 * JWT_EXPIRY_HOURS⟩) := by
  rw [generate_token, hs, hsec]
  rfl

/-- An issued token, presented before its expiry, verifies to its
subject, over any persisted state. -/
theorem verify_issued_ok (st : BankState) (secret : List Char) (s r : String) (now t : Nat)
    (hs : s.data.isEmpty = false) (hsec : secret.isEmpty = false)
    (ht : t ≤ now + 3600 * JWT_EXPIRY_HOURS) :
    verify_token_from_request st secret
        (jwtEncode secret ⟨s, r, now, now + 3600 * JWT_EXPIRY_HOURS⟩) t
      = (⟨true, some s, "Token is valid", none⟩, st) := by
  have hne : (jwtEncode secret ⟨s, r, now, now + 3600 * JWT_EXPIRY_HOURS⟩).isEmpty = false := by
    rw [List.isEmpty_eq_false_iff_exists_mem]
    rcases List.exists_mem_of_ne_nil _ (jwtEncode_ne_nil secret ⟨s, r, now, now + 3600 * JWT_EXPIRY_HOURS⟩) with ⟨x, hx⟩
    exact ⟨x, hx⟩
  have hdec : jwtDecode secret (jwtEncode secret ⟨s, r, now, now + 3600 * JWT_EXPIRY_HOURS⟩) t
      = JwtOutcome.ok ⟨s, r, now, now + 3600 * JWT_EXPIRY_HOURS⟩ := by
    rw [jwtDecode_jwtEncode, if_neg (show ¬ (now + 3600 * JWT_EXPIRY_HOURS < t) by omega)]
  have hval : validate_token secret (jwtEncode secret ⟨s, r, now, now + 3600 * JWT_EXPIRY_HOURS⟩) t
      = true := by
    rw [validate_token, hne, hsec, hdec]
    rfl
  have hdecode : decode_token secret (jwtEncode secret ⟨s, r, now, now + 3600 * JWT_EXPIRY_HOURS⟩) t
      = some ⟨s, r, now, now + 3600 * JWT_EXPIRY_HOURS⟩ := by
    rw [decode_token, hne, hsec, hdec]
    rfl
  rw [verify_token_from_request, hne, hval, hdecode]
  simp only [Bool.false_eq_true, if_false, not_true, JwtPayload.sub, hs]

/-- A once-tampered issued token is rejected with `TOKEN_INVALID` at
every verification time, over any persisted state. -/
theorem verify_tampered_invalid (st : BankState) (secret : List Char) (p : JwtPayload)
    (t i : Nat) (c : Char) (hi : i < (jwtEncode secret p).length)
    (hc : c ≠ (jwtEncode secret p).get ⟨i, hi⟩) :
    verify_token_from_request st secret ((jwtEncode secret p).set i c) t
      = (⟨false, none, "Invalid or expired token", some "TOKEN_INVALID"⟩, st) := by
  have hlen : ((jwtEncode secret p).set i c).length = (jwtEncode secret p).length :=
    List.length_set ..
  have hne : ((jwtEncode secret p).set i c).isEmpty = false := by
    rw [List.isEmpty_eq_false_iff_exists_mem]
    have : 0 < ((jwtEncode secret p).set i c).length := by
      rw [hlen]; omega
    rcases List.exists_mem_of_ne_nil _ (List.ne_nil_of_length_pos this) with ⟨x, hx⟩
    exact ⟨x, hx⟩
  have hval : validate_token secret ((jwtEncode secret p).set i c) t = false := by
    rw [validate_token, hne]
    by_cases hsec : secret.isEmpty
    · rw [hsec]; rfl
    · rw [eq_false_of_ne_true hsec, jwtDecode_tamper secret p t i c hi hc]
      rfl
  rw [verify_token_from_request, hne, hval]
  rfl

/-- The result of `verify_token_from_request` does not depend on the
persisted state, which it returns untouched. -/
theorem verify_token_state_invariant (st : BankState) (secret token : List Char) (now : Nat) :
    verify_token_from_request st secret token now
      = ((verify_token_from_request ⟨[], [], []⟩ secret token now).1, st) := by
  rw [verify_token_from_request, verify_token_from_request]
  repeat' split
  all_goals rfl

/-- C6: round-trip — verifying a token issued for a non-empty subject
before its expiry succeeds and returns that subject — and altering any
one character anywhere in the issued token makes verification fail with
`TOKEN_INVALID`, at every verification time and over every state. -/
theorem C6_token_roundtrip_and_tamper (st : BankState) (secret : List Char) (s r : String)
    (now : Nat) (hs : s.data.isEmpty = false) (hsec : secret.isEmpty = false) :
    ∃ tok, generate_token secret s r now = .ok tok ∧
      (∀ t, t ≤ now + 3600 * JWT_EXPIRY_HOURS →
        verify_token_from_request st secret tok t
          = (⟨true, some s, "Token is valid", none⟩, st)) ∧
      (∀ i (hi : i < tok.length) (c : Char), c ≠ tok.get ⟨i, hi⟩ → ∀ t,
        verify_token_from_request st secret (tok.set i c) t
          = (⟨false, none, "Invalid or expired token", some "TOKEN_INVALID"⟩, st)) := by
  refine ⟨jwtEncode secret ⟨s, r, now, now + 3600 * JWT_EXPIRY_HOURS⟩,
    generate_token_ok secret s r now hs hsec, ?_, ?_⟩
  · intro t ht
    exact verify_issued_ok st secret s r now t hs hsec ht
  · intro i hi c hc t
    exact verify_tampered_invalid st secret ⟨s, r, now, now + 3600 * JWT_EXPIRY_HOURS⟩ t i c hi hc

/-- Closed witness for C6 at subject `"alice"`, role `"customer"`,
secret `['k']`, issue time 0, over the concrete table. -/
theorem C6_token_roundtrip_and_tamper_witness :
    ("alice" : String).data.isEmpty = false ∧ (['k'] : List Char).isEmpty = false ∧
    ∃ tok, generate_token ['k'] "alice" "customer" 0 = .ok tok ∧
      (∀ t, t ≤ 0 + 3600 * JWT_EXPIRY_HOURS →
        verify_token_from_request demoState ['k'] tok t
          = (⟨true, some "alice", "Token is valid", none⟩, demoState)) ∧
      (∀ i (hi : i < tok.length) (c : Char), c ≠ tok.get ⟨i, hi⟩ → ∀ t,
        verify_token_from_request demoState ['k'] (tok.set i c) t
          = (⟨false, none, "Invalid or expired token", some "TOKEN_INVALID"⟩, demoState)) :=
  ⟨by decide, by decide,
   C6_token_roundtrip_and_tamper demoState ['k'] "alice" "customer" 0 (by decide) (by decide)⟩

/-- C7: a well-formed token whose signature verifies but whose `exp` is
strictly in the past is rejected with exactly the same dictionary —
message and `TOKEN_INVALID` code — as a token whose signature fails, so
the caller cannot distinguish expiry from forgery. -/
theorem C7_expired_equals_forged (st : BankState) (secret body sig : List Char) (now : Nat)
    (hdb : '.' ∉ body) (hds : '.' ∉ sig) :
    ((sig = macSign secret body) → ∀ p, parsePayload body = some p → p.exp < now →
      verify_token_from_request st secret (body ++ ('.' :: sig)) now
        = (⟨false, none, "Invalid or expired token", some "TOKEN_INVALID"⟩, st)) ∧
    ((sig ≠ macSign secret body) →
      verify_token_from_request st secret (body ++ ('.' :: sig)) now
        = (⟨false, none, "Invalid or expired token", some "TOKEN_INVALID"⟩, st)) := by
  have hne : (body ++ ('.' :: sig)).isEmpty = false := by
    cases body <;> rfl
  constructor
  · intro hsig p hp hexp
    have hval : validate_token secret (body ++ ('.' :: sig)) now = false := by
      rw [validate_token, hne]
      by_cases hsec : secret.isEmpty
      · rw [hsec]; rfl
      · rw [eq_false_of_ne_true hsec]
        rw [jwtDecode, splitOnSep_append _ hdb, splitOnSep_of_not_mem hds]
        dsimp only
        rw [if_pos hsig, hp]
        dsimp only
        rw [if_pos hexp]
        rfl
    rw [verify_token_from_request, hne, hval]
    rfl
  · intro hsig
    have hval : validate_token secret (body ++ ('.' :: sig)) now = false := by
      rw [validate_token, hne]
      by_cases hsec : secret.isEmpty
      · rw [hsec]; rfl
      · rw [eq_false_of_ne_true hsec]
        rw [jwtDecode, splitOnSep_append _ hdb, splitOnSep_of_not_mem hds]
        dsimp only
        rw [if_neg hsig]
        rfl
    rw [verify_token_from_request, hne, hval]
    rfl

/-- Closed witness for C7: a genuinely signed token with `exp = 1`,
verified at time 2, is rejected with the `TOKEN_INVALID` dictionary. -/
theorem C7_expired_equals_forged_witness :
    (⟨"a", "c", 0, 1⟩ : JwtPayload).exp < 2 ∧
    verify_token_from_request demoState ['k']
        (serializePayload ⟨"a", "c", 0, 1⟩ ++
          ('.' :: macSign ['k'] (serializePayload ⟨"a", "c", 0, 1⟩))) 2
      = (⟨false, none, "Invalid or expired token", some "TOKEN_INVALID"⟩, demoState) :=
  ⟨by decide,
   (C7_expired_equals_forged demoState ['k'] (serializePayload ⟨"a", "c", 0, 1⟩)
      (macSign ['k'] (serializePayload ⟨"a", "c", 0, 1⟩)) 2
      (dot_not_mem_serializePayload ⟨"a", "c", 0, 1⟩)
      (dot_not_mem_macSign ['k'] (serializePayload ⟨"a", "c", 0, 1⟩))).1 rfl
     ⟨"a", "c", 0, 1⟩ (parsePayload_serializePayload ⟨"a", "c", 0, 1⟩) (by decide)⟩

/-- C9: verification is side-effect-free and ledger-independent — over
any two persisted states the result is identical, the state is returned
untouched, and a validly signed, unexpired token verifies OK even over a
state whose token table is empty (the token was never stored). -/
theorem C9_verify_pure_ledger_independent (secret token : List Char) (now : Nat) :
    (∀ st st' : BankState,
      (verify_token_from_request st secret token now).1
        = (verify_token_from_request st' secret token now).1) ∧
    (∀ st : BankState, (verify_token_from_request st secret token now).2 = st) ∧
    (∀ (users : List Account) (txs : List TxRecord) (s r : String) (issued t : Nat),
      s.data.isEmpty = false → secret.isEmpty = false →
      t ≤ issued + 3600 * JWT_EXPIRY_HOURS →
      ∀ tok, generate_token secret s r issued = .ok tok →
        verify_token_from_request ⟨users, txs, []⟩ secret tok t
          = (⟨true, some s, "Token is valid", none⟩, ⟨users, txs, []⟩)) := by
  refine ⟨?_, ?_, ?_⟩
  · intro st st'
    rw [verify_token_state_invariant st, verify_token_state_invariant st']
  · intro st
    rw [verify_token_state_invariant st]
  · intro users txs s r issued t hs hsec ht tok htok
    rw [generate_token_ok secret s r issued hs hsec] at htok
    injection htok with htok
    subst htok
    exact verify_issued_ok ⟨users, txs, []⟩ secret s r issued t hs hsec ht

/-- Closed witness for C9: concrete states with different token tables
give the same verification result; an issued, never-stored token
verifies OK over an empty token table. -/
theorem C9_verify_pure_ledger_independent_witness :
    ((verify_token_from_request demoState ['k'] ['x'] 7).1
      = (verify_token_from_request ⟨[], [], [⟨['x'], "u9", 99⟩]⟩ ['k'] ['x'] 7).1) ∧
    (∀ tok, generate_token ['k'] "alice" "customer" 0 = .ok tok →
      verify_token_from_request ⟨demoState.users, [], []⟩ ['k'] tok 60
        = (⟨true, some "alice", "Token is valid", none⟩, ⟨demoState.users, [], []⟩)) :=
  ⟨(C9_verify_pure_ledger_independent ['k'] ['x'] 7).1 demoState ⟨[], [], [⟨['x'], "u9", 99⟩]⟩,
   fun tok htok =>
     (C9_verify_pure_ledger_independent ['k'] tok 60).2.2 demoState.users [] "alice" "customer" 0 60
       (by decide) (by decide) (by decide) tok htok⟩

/-! ### Login claims -/

theorem validate_username_nonempty {u : String} (h : validate_username u = true) :
    u.data.isEmpty = false := by
  rw [validate_username] at h
  by_cases he : u.data.isEmpty
  · rw [if_pos he] at h; exact absurd h (by simp)
  · exact eq_false_of_ne_true he

/-- C8 (amended): for every format-valid username and non-empty
password, a login where the account does not exist and a login where the
account exists but the password mismatches return the very same
dictionary: `success = False`, message `"Invalid credentials"`, code
`INVALID_CREDENTIALS`; the state is untouched in both cases. -/
theorem C8_login_conflates_unknown_user_and_bad_password (st : BankState) (u p : String)
    (secret : List Char) (now : Nat) (sf : Bool)
    (hu : validate_username u = true) (hp : p.data.isEmpty = false) :
    (findUser st u = none →
      login st u p secret now sf
        = (⟨false, "Invalid credentials", none, none, some "INVALID_CREDENTIALS"⟩, st)) ∧
    (∀ a, findUser st u = some a → verify_password p a.passwordHash = false →
      login st u p secret now sf
        = (⟨false, "Invalid credentials", none, none, some "INVALID_CREDENTIALS"⟩, st)) := by
  have hune := validate_username_nonempty hu
  constructor
  · intro hf
    rw [login, hune, hp, hu, hf]
    rfl
  · intro a hf hv
    rw [login, hune, hp, hu, hf]
    dsimp only
    rw [hv]
    rfl

/-- Closed witness for C8 (amended): on the concrete table, an unknown
account (`carol`) and a wrong password for `alice` produce the identical
`INVALID_CREDENTIALS` dictionary. -/
theorem C8_login_conflates_witness :
    validate_username "carol" = true ∧ findUser demoState "carol" = none ∧
    verify_password "wrongpw1" "h1" = false ∧
    login demoState "carol" "pw123456" ['k'] 0 false
      = (⟨false, "Invalid credentials", none, none, some "INVALID_CREDENTIALS"⟩, demoState) ∧
    login demoState "alice" "wrongpw1" ['k'] 0 false
      = (⟨false, "Invalid credentials", none, none, some "INVALID_CREDENTIALS"⟩, demoState) :=
  ⟨by decide, by decide, by decide,
   (C8_login_conflates_unknown_user_and_bad_password demoState "carol" "pw123456" ['k'] 0 false
      (by decide) (by decide)).1 (by decide),
   (C8_login_conflates_unknown_user_and_bad_password demoState "alice" "wrongpw1" ['k'] 0 false
      (by decide) (by decide)).2 ⟨"u1", "alice", "a@x.com", "h1", "1234567890", 1000⟩
     (by decide) (by decide)⟩

/-- C8 counterexample to the claim as frozen: `"a b"` is a non-empty
username, the account does not exist in the concrete table, yet login
returns `VALIDATION_ERROR` (with message `"Invalid username format"`),
not the `INVALID_CREDENTIALS` shape the claim asserts for every
non-empty username. -/
theorem C8_counterexample_format_invalid_username :
    ("a b" : String).data.isEmpty = false ∧ ("secret1" : String).data.isEmpty = false ∧
    findUser demoState "a b" = none ∧
    (login demoState "a b" "secret1" ['k'] 0 false).1.error_code ≠ some "INVALID_CREDENTIALS" ∧
    login demoState "a b" "secret1" ['k'] 0 false
      = (⟨false, "Invalid username format", none, none, some "VALIDATION_ERROR"⟩, demoState) := by
  refine ⟨by decide, by decide, by decide, ?_, ?_⟩ <;> decide

/-- C10: a non-empty username failing the username format, with any
non-empty password, makes login return `VALIDATION_ERROR` with message
`"Invalid username format"` — a code distinct from `INVALID_CREDENTIALS`,
so a caller can tell a structurally invalid username from a
valid-but-unknown one. -/
theorem C10_login_distinguishes_invalid_format (st : BankState) (u p : String)
    (secret : List Char) (now : Nat) (sf : Bool)
    (hu : u.data.isEmpty = false) (hp : p.data.isEmpty = false)
    (hv : validate_username u = false) :
    login st u p secret now sf
      = (⟨false, "Invalid username format", none, none, some "VALIDATION_ERROR"⟩, st) ∧
    (some "VALIDATION_ERROR" : Option String) ≠ some "INVALID_CREDENTIALS" := by
  constructor
  · rw [login, hu, hp, hv]
    rfl
  · decide

/-- Closed witness for C10 at the concrete input `"bad name"` (contains
a space). -/
theorem C10_login_distinguishes_invalid_format_witness :
    ("bad name" : String).data.isEmpty = false ∧ validate_username "bad name" = false ∧
    login demoState "bad name" "pw123456" ['k'] 0 false
      = (⟨false, "Invalid username format", none, none, some "VALIDATION_ERROR"⟩, demoState) :=
  ⟨by decide, by decide,
   (C10_login_distinguishes_invalid_format demoState "bad name" "pw123456" ['k'] 0 false
      (by decide) (by decide) (by decide)).1⟩
